import Mathlib

/-!
Shallow embedding of the sutrofm party-coordination core
(src/sutrofm/models.py and src/sutrofm/management/commands/party_manager.py).

Modelling conventions:
* timestamps and durations are integers in milliseconds (`now()` deltas
  compare exactly at this granularity in the code paths modelled here);
* database rows become list elements; Django `delete()` becomes list
  filtering; `save()` at the end of a tick returns the updated state;
* the external track-metadata service (`get_track_duration`) is a
  parameter `lookup : String → Option Int`;
* a Python exception raised inside a tick (caught by `Command.run`)
  is represented by `Option TickError` in the result.
-/

namespace Sutrofm

/-- Model of milliseconds in `Party.MAX_MANAGER_CHECK_IN_WAIT = timedelta(seconds=10)`. -/
def MAX_MANAGER_CHECK_IN_WAIT : Int := 10000

/-- Model of milliseconds in `USER_CHECK_IN_FREQUENCY = timedelta(minutes=1)`. -/
def USER_CHECK_IN_FREQUENCY : Int := 60000

/-- Model of `UserVote`: signed weight `value` and independent skip flag. -/
structure UserVote where
  user : Nat
  value : Int
  is_skip : Bool
deriving DecidableEq, Repr

/-- Model of `QueueItem` together with its related `votes`. -/
structure QueueItem where
  id : Nat
  identifier : String
  playing_start_time : Option Int
  duration_ms : Option Int
  votes : List UserVote
deriving DecidableEq, Repr

/-- Model of `UserPartyPresence`. -/
structure UserPartyPresence where
  user : Nat
  last_check_in : Int
deriving DecidableEq, Repr

/-- Model of `Party` with its related queue items and presences.
`playing_item` stores the id of the playing `QueueItem` row (a foreign key). -/
structure Party where
  playing_item : Option Nat
  items : List QueueItem
  presences : List UserPartyPresence
  last_manager_uuid : Option Nat
  last_manager_check_in : Option Int
deriving DecidableEq, Repr

/-- Model of `Party.user_count`: `self.users.count()`, the number of
`UserPartyPresence` rows for the party. -/
def user_count (p : Party) : Nat := p.presences.length

/-- Model of `QueueItem.vote_score`: `Sum('value')` over the item's votes. -/
def vote_score (it : QueueItem) : Int := (it.votes.map (·.value)).sum

/-- Model of the skip-vote aggregate in `QueueItem.should_skip`:
`Count(Case(When(is_skip=True, then=Value(1))))` counts the votes whose
skip flag is set. -/
def skip_count (it : QueueItem) : Nat := (it.votes.filter (·.is_skip)).length

/-- Model of `QueueItem.should_skip`: `skip_count > (user_count / 2)` with
Python true division, so the comparison is over rationals
(`Rat.divInt userCount 2` is the exact rational `userCount / 2`). -/
def should_skip (userCount : Nat) (it : QueueItem) : Bool :=
  decide (Rat.divInt userCount 2 < (skip_count it : ℚ))

/-- Model of `QueueItem.get_track_position`: returns the pair
`(time_played_ms, total_duration_ms)`.  `if not self.duration_ms` is a Python
falsy test, true for both `None` and `0`. -/
def get_track_position (it : QueueItem) (now : Int) : Int × Int :=
  match it.duration_ms with
  | none => (0, 0)
  | some d =>
    if d = 0 then (0, 0)
    else
      match it.playing_start_time with
      | none => (0, d)
      | some t =>
        let position := now - t
        if position > d then (d, d) else (position, d)

/-- Model of the `annotate(score=Sum('votes__value'))` annotation: SQL
`Sum` over the empty vote group of an unvoted item is NULL (`none`),
otherwise the integer sum of the vote values. -/
def sql_score (it : QueueItem) : Option Int :=
  if it.votes.isEmpty then none else some (vote_score it)

/-- Ordering of annotated scores under `ORDER BY score DESC`: real scores
descend, and a NULL score sorts before every real score when
`nulls_first = true` (PostgreSQL) and after every real score when
`nulls_first = false` (SQLite, MySQL).  No backend interleaves NULL with
the real scores. -/
def sql_desc_le (nulls_first : Bool) : Option Int → Option Int → Prop
  | none, none => True
  | none, some _ => nulls_first = true
  | some _, none => nulls_first = false
  | some x, some y => y ≤ x

instance (nf : Bool) : ∀ a b, Decidable (sql_desc_le nf a b)
  | none, none => isTrue trivial
  | none, some _ => inferInstanceAs (Decidable (nf = true))
  | some _, none => inferInstanceAs (Decidable (nf = false))
  | some _, some _ => Int.decLe _ _

theorem sql_desc_le_total (nf : Bool) :
    ∀ a b : Option Int, sql_desc_le nf a b ∨ sql_desc_le nf b a
  | none, none => Or.inl trivial
  | none, some _ => Bool.eq_false_or_eq_true nf
  | some _, none => (Bool.eq_false_or_eq_true nf).symm
  | some x, some y => le_total y x

theorem sql_desc_le_trans (nf : Bool) :
    ∀ a b c : Option Int,
      sql_desc_le nf a b → sql_desc_le nf b c → sql_desc_le nf a c
  | none, none, none => fun _ _ => trivial
  | none, none, some _ => fun _ h2 => h2
  | none, some _, none => fun _ _ => trivial
  | none, some _, some _ => fun h1 _ => h1
  | some _, none, none => fun h1 _ => h1
  | some _, none, some _ => fun h1 h2 => absurd (h1 ▸ h2) Bool.false_ne_true
  | some _, some _, none => fun _ h2 => h2
  | some _, some _, some _ => fun h1 h2 => le_trans h2 h1

/-- Row ordering of `order_by('-score')` on the annotated queryset. -/
def score_order (nulls_first : Bool) (a b : QueueItem) : Prop :=
  sql_desc_le nulls_first (sql_score a) (sql_score b)

instance (nf : Bool) : DecidableRel (score_order nf) := fun a b =>
  inferInstanceAs (Decidable (sql_desc_le nf (sql_score a) (sql_score b)))

instance (nf : Bool) : IsTotal QueueItem (score_order nf) :=
  ⟨fun a b => sql_desc_le_total nf (sql_score a) (sql_score b)⟩

instance (nf : Bool) : IsTrans QueueItem (score_order nf) :=
  ⟨fun a b c => sql_desc_le_trans nf (sql_score a) (sql_score b) (sql_score c)⟩

/-- Model of `VoteOrderedQueueManager.get_queryset`: filter
`playing_start_time=None`, annotate each row with `score=Sum('votes__value')`
(`sql_score`, NULL for unvoted rows), order by `order_by('-score')`.  The
placement of NULL scores depends on the database backend and is passed in
as `nulls_first`; ties among equal scores are stored in an order the
database does not specify, so any sort by the row ordering is a faithful
model. -/
def voted_queryset (nulls_first : Bool) (items : List QueueItem) :
    List QueueItem :=
  (items.filter (fun it => it.playing_start_time.isNone)).insertionSort
    (score_order nulls_first)

/-- Model of `QueueItem.get_next`: `voted_objects.filter(party=party).first()`. -/
def get_next (nulls_first : Bool) (items : List QueueItem) : Option QueueItem :=
  (voted_queryset nulls_first items).head?

/-- Model of `QueueItem.start_playing`: resolve a falsy (`None` or `0`)
duration through the external metadata service, then set
`playing_start_time = now()`. -/
def start_playing (lookup : String → Option Int) (now : Int) (it : QueueItem) :
    QueueItem :=
  let it1 :=
    if it.duration_ms.getD 0 = 0 then
      { it with duration_ms := lookup it.identifier }
    else it
  { it1 with playing_start_time := some now }

/-- Model of `Party.play_next_queue_item`: select the next item via
`get_next`, delete the previously playing row, start the selected item
playing (updating its row), and save. -/
def play_next_queue_item (nulls_first : Bool) (lookup : String → Option Int)
    (now : Int) (p : Party) : Party :=
  let prev := p.playing_item
  let next := get_next nulls_first p.items
  let items1 :=
    match prev with
    | none => p.items
    | some pid => p.items.filter (fun it => it.id ≠ pid)
  match next with
  | none => { p with playing_item := none, items := items1 }
  | some nit =>
    let started := start_playing lookup now nit
    { p with
        playing_item := some started.id
        items := items1.map (fun it => if it.id = nit.id then started else it) }

/-- Model of `Party.needs_new_manager`. -/
def needs_new_manager (p : Party) (now : Int) : Bool :=
  match p.last_manager_check_in with
  | none => true
  | some t => decide (now - t > MAX_MANAGER_CHECK_IN_WAIT)

/-- Model of `Command.update_party_manager_timestamp`: unconditionally
overwrite the stored owner identity and heartbeat. -/
def update_party_manager_timestamp (uuid : Nat) (now : Int) (p : Party) :
    Party :=
  { p with last_manager_uuid := some uuid, last_manager_check_in := some now }

/-- Model of the ownership-claim step in `Command.handle` (lines 36-41):
if `needs_new_manager` the instance writes its uuid and the current time as
heartbeat and proceeds; otherwise the claim fails (`keep_running = False`). -/
def claim (uuid : Nat) (now : Int) (p : Party) : Option Party :=
  if needs_new_manager p now then
    some (update_party_manager_timestamp uuid now p)
  else
    none

/-- Model of `Command.prune_users`: delete every presence with
`last_check_in < now() - USER_CHECK_IN_FREQUENCY`. -/
def prune_users (now : Int) (p : Party) : Party :=
  { p with
      presences :=
        p.presences.filter
          (fun pr => ¬ (pr.last_check_in < now - USER_CHECK_IN_FREQUENCY)) }

/-- Model of a Python exception escaping a tick; `zeroDivision` is the
`ZeroDivisionError` raised by `round(position_ms/duration_ms*100)` in
`Command.update_track`, `missingItem` an attribute error on a dangling
`playing_item` reference. -/
inductive TickError
  | zeroDivision
  | missingItem
deriving DecidableEq, Repr

/-- Model of the Django object lookup `self.party.playing_item` as a row. -/
def findItem (items : List QueueItem) (i : Nat) : Option QueueItem :=
  items.find? (fun it => it.id == i)

/-- Model of `Command.update_track`: the per-tick playback state machine.
Returns the state as mutated so far and the exception, if one was raised. -/
def update_track (nulls_first : Bool) (lookup : String → Option Int)
    (now : Int) (p : Party) : Party × Option TickError :=
  let queue_size := (voted_queryset nulls_first p.items).length
  if p.playing_item.isNone ∧ queue_size = 0 then (p, none)
  else
    let p1 :=
      if p.playing_item.isNone ∧ queue_size ≠ 0 then
        play_next_queue_item nulls_first lookup now p
      else p
    match p1.playing_item.bind (findItem p1.items) with
    | none => (p1, some TickError.missingItem)
    | some it =>
      let pd := get_track_position it now
      if pd.2 = 0 then (p1, some TickError.zeroDivision)
      else if pd.1 = pd.2 ∨ should_skip (user_count p1) it = true then
        (play_next_queue_item nulls_first lookup now p1, none)
      else (p1, none)

/-- Model of `Command.maintain_party`: refresh from the store, then
`update_track`, `prune_users`, `update_party_manager_timestamp`, save.
An exception aborts the remaining steps of the tick. -/
def maintain_party (nulls_first : Bool) (lookup : String → Option Int)
    (now : Int) (uuid : Nat) (db : Party) : Party × Option TickError :=
  let r := update_track nulls_first lookup now db
  match r.2 with
  | some e => (r.1, some e)
  | none =>
    let p2 := prune_users now r.1
    let p3 := update_party_manager_timestamp uuid now p2
    (p3, none)

/-- Model of `Command.other_manager_owns_party`. -/
def other_manager_owns_party (uuid : Nat) (p : Party) : Bool :=
  decide (p.last_manager_uuid ≠ some uuid)

/-- Model of `Command.should_keep_running`. -/
def should_keep_running (uuid : Nat) (p : Party) : Bool :=
  user_count p ≠ 0 ∧ ¬ other_manager_owns_party uuid p = true

/-- Model of one iteration of the `while` body in `Command.run`: run
`maintain_party` and re-evaluate `keep_running`; an exception is caught and
logged, leaving `keep_running` unchanged (`true`, as the body was entered). -/
def tick (nulls_first : Bool) (lookup : String → Option Int) (now : Int)
    (uuid : Nat) (db : Party) : Party × Bool :=
  let r := maintain_party nulls_first lookup now uuid db
  match r.2 with
  | some _ => (r.1, true)
  | none => (r.1, should_keep_running uuid r.1)

/-- Model of the `while self.keep_running` loop of `Command.run`, with fuel
bounding the number of iterations observed and a clock giving the wall time
of each tick.  Returns the final store state and the number of ticks that
actually executed. -/
def run (nulls_first : Bool) (lookup : String → Option Int)
    (clock : Nat → Int) (uuid : Nat) :
    Nat → Nat → Party → Bool → Party × Nat
  | 0, _, db, _ => (db, 0)
  | fuel + 1, i, db, keep =>
    if keep then
      let r := tick nulls_first lookup (clock i) uuid db
      let rest := run nulls_first lookup clock uuid fuel (i + 1) r.1 r.2
      (rest.1, rest.2 + 1)
    else (db, 0)

/-- Model of `Command.handle`: claim once at startup (in memory), then run
the tick loop with `keep_running` set by the claim outcome. -/
def handle (nulls_first : Bool) (lookup : String → Option Int)
    (clock : Nat → Int) (uuid : Nat) (fuel : Nat) (db : Party) :
    Party × Nat :=
  if needs_new_manager db (clock 0) then
    run nulls_first lookup clock uuid fuel 1 db true
  else
    run nulls_first lookup clock uuid fuel 1 db false

/-- Modelled from the spec: section 4.5 prescribes the per-tick order
"Presence Tracker prune → Playback State Machine tick → renew ownership
heartbeat"; this variant of `maintain_party` runs pruning first, so the
skip check consumes the post-prune presence count.  It exists only to be
compared against the code-order `maintain_party`. -/
def maintain_party_spec_order (nulls_first : Bool)
    (lookup : String → Option Int) (now : Int) (uuid : Nat) (db : Party) :
    Party × Option TickError :=
  let p1 := prune_users now db
  let r := update_track nulls_first lookup now p1
  match r.2 with
  | some e => (r.1, some e)
  | none => (update_party_manager_timestamp uuid now r.1, none)

/-- Degenerate metadata service used by the concrete scenarios: every
lookup fails to resolve a duration. -/
def no_lookup : String → Option Int := fun _ => none

/-! ## Helper lemmas shared by several claims -/

theorem start_playing_id (lookup : String → Option Int) (now : Int)
    (it : QueueItem) : (start_playing lookup now it).id = it.id := by
  unfold start_playing
  split <;> rfl

theorem start_playing_time (lookup : String → Option Int) (now : Int)
    (it : QueueItem) :
    (start_playing lookup now it).playing_start_time = some now := rfl

theorem get_next_mem {nf : Bool} {items : List QueueItem} {j : QueueItem}
    (h : get_next nf items = some j) :
    j ∈ items ∧ j.playing_start_time = none := by
  unfold get_next voted_queryset at h
  have hmem := List.mem_of_mem_head? (Option.mem_def.mpr h)
  rw [List.mem_insertionSort, List.mem_filter] at hmem
  exact ⟨hmem.1, Option.isNone_iff_eq_none.mp hmem.2⟩

theorem item_id_inj {items : List QueueItem}
    (hnodup : (items.map QueueItem.id).Nodup) {a b : QueueItem}
    (ha : a ∈ items) (hb : b ∈ items) (hid : a.id = b.id) : a = b :=
  List.inj_on_of_nodup_map hnodup ha hb hid

theorem play_next_presences (nf : Bool) (lookup : String → Option Int)
    (now : Int) (p : Party) :
    (play_next_queue_item nf lookup now p).presences = p.presences := by
  unfold play_next_queue_item
  cases h : get_next nf p.items <;> simp [h]

theorem play_next_playing_ne (nf : Bool) (lookup : String → Option Int)
    (now : Int) {p : Party} (hnodup : (p.items.map QueueItem.id).Nodup)
    {it : QueueItem} (hit : it ∈ p.items) {t : Int}
    (ht : it.playing_start_time = some t) :
    (play_next_queue_item nf lookup now p).playing_item ≠ some it.id := by
  unfold play_next_queue_item
  cases hnext : get_next nf p.items with
  | none => simp
  | some nit =>
    have hmem := get_next_mem hnext
    simp only [Option.some.injEq]
    intro hcontra
    rw [start_playing_id] at hcontra
    have heq : nit = it := item_id_inj hnodup hmem.1 hit (Option.some.inj hcontra)
    rw [heq, ht] at hmem
    exact Option.noConfusion hmem.2

theorem run_stopped (nf : Bool) (lookup : String → Option Int)
    (clock : Nat → Int) (uuid fuel i : Nat) (db : Party) :
    run nf lookup clock uuid fuel i db false = (db, 0) := by
  cases fuel <;> simp [run]

/-! ## Claims -/

/-- Queue item with three skip votes, used by the C5 boundary scenarios. -/
def item_three_skips : QueueItem :=
  { id := 1
    identifier := "trackA"
    playing_start_time := none
    duration_ms := some 120000
    votes := [⟨1, 0, true⟩, ⟨2, 0, true⟩, ⟨3, 0, true⟩, ⟨4, 1, false⟩] }

/-- Queue item with two skip votes, used by the C5 boundary scenarios. -/
def item_two_skips : QueueItem :=
  { id := 2
    identifier := "trackB"
    playing_start_time := none
    duration_ms := some 120000
    votes := [⟨1, 0, true⟩, ⟨2, 0, true⟩] }

/-- Claim C5: the skip decision is true iff the skip-vote count strictly
exceeds half the party user count under real (fractional) division; 3 skip
votes of 5 users triggers a skip, while 2 of 4 (the `k = n/2` boundary)
does not. -/
theorem c5_should_skip_strict_majority :
    (∀ (n : ℕ) (it : QueueItem),
        should_skip n it = true ↔ (n : ℚ) / 2 < (skip_count it : ℚ))
    ∧ should_skip 5 item_three_skips = true
    ∧ should_skip 4 item_two_skips = false := by
  refine ⟨fun n it => ?_, by decide, by decide⟩
  unfold should_skip
  rw [decide_eq_true_iff, Rat.divInt_eq_div]
  push_cast
  exact Iff.rfl

/-- Claim C10: at the exact staleness boundary (heartbeat exactly
`MAX_MANAGER_CHECK_IN_WAIT` old) the lease is still considered held: the
comparison is strictly greater-than, so `needs_new_manager` is false and a
claim attempted at exactly the threshold fails. -/
theorem c10_exact_threshold_lease_held (p : Party) (t : Int) (uuid : Nat)
    (h : p.last_manager_check_in = some t) :
    needs_new_manager p (t + MAX_MANAGER_CHECK_IN_WAIT) = false
    ∧ claim uuid (t + MAX_MANAGER_CHECK_IN_WAIT) p = none := by
  have h1 : needs_new_manager p (t + MAX_MANAGER_CHECK_IN_WAIT) = false := by
    unfold needs_new_manager
    rw [h]
    simp only [decide_eq_false_iff_not]
    omega
  refine ⟨h1, ?_⟩
  unfold claim
  rw [h1]
  simp

/-- Party at the exact lease boundary, used by the C10 witness. -/
def party_boundary : Party :=
  { playing_item := none
    items := []
    presences := [⟨1, 9000⟩]
    last_manager_uuid := some 42
    last_manager_check_in := some 0 }

/-- Witness for C10 at a concrete party whose heartbeat is exactly 10
seconds old. -/
theorem c10_exact_threshold_lease_held_witness :
    needs_new_manager party_boundary (0 + MAX_MANAGER_CHECK_IN_WAIT) = false
    ∧ claim 7 (0 + MAX_MANAGER_CHECK_IN_WAIT) party_boundary = none :=
  c10_exact_threshold_lease_held party_boundary 0 7 rfl

/-- Claim C7: the startup claim succeeds, writing the caller identity and
the current time as heartbeat, iff the stored heartbeat is absent or
strictly older than `MAX_MANAGER_CHECK_IN_WAIT`; in particular it always
succeeds when no heartbeat is stored, and always fails (for any caller,
hence for a different owner identity) while the heartbeat is younger. -/
theorem c7_claim_iff_stale (uuid : Nat) (now : Int) (p : Party) :
    ((claim uuid now p).isSome = true ↔
      (p.last_manager_check_in = none ∨
        ∃ t, p.last_manager_check_in = some t ∧
          now - t > MAX_MANAGER_CHECK_IN_WAIT))
    ∧ (∀ q, claim uuid now p = some q →
        q.last_manager_uuid = some uuid ∧ q.last_manager_check_in = some now)
    ∧ (p.last_manager_check_in = none → (claim uuid now p).isSome = true)
    ∧ (∀ t, p.last_manager_check_in = some t →
        now - t ≤ MAX_MANAGER_CHECK_IN_WAIT → claim uuid now p = none) := by
  unfold claim needs_new_manager update_party_manager_timestamp
  cases hc : p.last_manager_check_in with
  | none =>
    refine ⟨by simp, ?_, by simp, by simp⟩
    intro q hq
    simp only [if_pos] at hq
    rw [← Option.some.inj hq]
    exact ⟨rfl, rfl⟩
  | some t =>
    by_cases hgt : now - t > MAX_MANAGER_CHECK_IN_WAIT
    · refine ⟨by simp [hgt], ?_, by simp, ?_⟩
      · intro q hq
        rw [if_pos (by simp [hgt])] at hq
        rw [← Option.some.inj hq]
        exact ⟨rfl, rfl⟩
      · intro s hs hle
        have hts := Option.some.inj hs
        exfalso
        omega
    · refine ⟨by simp [hgt], ?_, by simp, ?_⟩
      · intro q hq
        rw [if_neg (by simp [hgt])] at hq
        exact Option.noConfusion hq
      · intro s hs _
        rw [if_neg (by simp [hgt])]

/-- Party with no stored heartbeat, used by the C7 witness. -/
def party_unclaimed : Party :=
  { playing_item := none
    items := []
    presences := []
    last_manager_uuid := none
    last_manager_check_in := none }

/-- Witness for C7: the first caller on a party with no stored heartbeat
succeeds, and a caller one millisecond before the staleness threshold of a
concrete claimed party fails. -/
theorem c7_claim_iff_stale_witness :
    (claim 3 5000 party_unclaimed).isSome = true
    ∧ claim 3 MAX_MANAGER_CHECK_IN_WAIT party_boundary = none :=
  ⟨(c7_claim_iff_stale 3 5000 party_unclaimed).2.2.1 rfl,
    (c7_claim_iff_stale 3 MAX_MANAGER_CHECK_IN_WAIT party_boundary).2.2.2 0 rfl
      (by decide)⟩

/-- Claim C8: when the startup claim fails because another instance owns
the party, `handle` never enters the tick loop: the stored state is
unchanged and zero ticks execute. -/
theorem c8_failed_claim_zero_ticks (nf : Bool) (lookup : String → Option Int)
    (clock : Nat → Int) (uuid fuel : Nat) (db : Party)
    (h : needs_new_manager db (clock 0) = false) :
    handle nf lookup clock uuid fuel db = (db, 0) := by
  unfold handle
  rw [h]
  simp only [Bool.false_eq_true, if_false]
  exact run_stopped nf lookup clock uuid fuel 1 db

/-- Witness for C8: a concrete party whose heartbeat is fresh at startup is
left untouched, with zero ticks, for any fuel 5 run. -/
theorem c8_failed_claim_zero_ticks_witness :
    handle true no_lookup (fun i => 1000 * i) 3 5 party_boundary
      = (party_boundary, 0) :=
  c8_failed_claim_zero_ticks true no_lookup (fun i => 1000 * i) 3 5
    party_boundary (by decide)

/-- Claim C4: for a playing item with known duration `d` started at `t`,
the reported elapsed position is always in `[0, d]` (assuming the tick
clock does not run backwards past the start time), and at
`now = t + d` the reported position is exactly `d`. -/
theorem c4_track_position_bounds (it : QueueItem) (d t now : Int)
    (hd : it.duration_ms = some d) (hd0 : 0 ≤ d)
    (ht : it.playing_start_time = some t) (hnow : t ≤ now) :
    0 ≤ (get_track_position it now).1
    ∧ (get_track_position it now).1 ≤ d
    ∧ (now = t + d → (get_track_position it now).1 = d) := by
  simp only [get_track_position, hd, ht]
  split_ifs with h1 h2 <;> refine ⟨?_, ?_, fun he => ?_⟩ <;> simp <;> omega

/-- Playing item used by the C4 witness: duration 1000ms, started at
time 0. -/
def item_playing : QueueItem :=
  { id := 3
    identifier := "trackC"
    playing_start_time := some 0
    duration_ms := some 1000
    votes := [] }

/-- Witness for C4 at `now = t + d`: the position of a 1000ms track started
at 0 is exactly 1000 at time 1000. -/
theorem c4_track_position_bounds_witness :
    0 ≤ (get_track_position item_playing 1000).1
    ∧ (get_track_position item_playing 1000).1 ≤ 1000
    ∧ ((1000 : ℤ) = 0 + 1000 → (get_track_position item_playing 1000).1 = 1000) :=
  c4_track_position_bounds item_playing 1000 0 1000 rfl (by decide) rfl
    (by decide)

/-- Party state at the start of a tick in which another manager (uuid 999,
heartbeat fresh at 99500) owns the party, while instance 1 is still
looping: one queued item, one stale presence and one fresh one. -/
def db_c1 : Party :=
  { playing_item := none
    items := [{ id := 10
                identifier := "trackX"
                playing_start_time := none
                duration_ms := some 60000
                votes := [] }]
    presences := [⟨1, 1000⟩, ⟨2, 99000⟩]
    last_manager_uuid := some 999
    last_manager_check_in := some 99500 }

/-- Claim C1 is violated by the code: at a tick where the stored owner
identity (999) differs from this instance (1), the tick nevertheless
advances playback (a write), prunes a stale presence (a write), overwrites
the stored owner and heartbeat with its own identity (a write, persisted),
and keeps running — because `other_manager_owns_party` is only evaluated
after `update_party_manager_timestamp` overwrote the owner field. -/
theorem c1_superseded_instance_still_mutates :
    other_manager_owns_party 1 db_c1 = true
    ∧ (tick true no_lookup 100000 1 db_c1).1.playing_item = some 10
    ∧ (tick true no_lookup 100000 1 db_c1).1.presences = [⟨2, 99000⟩]
    ∧ (tick true no_lookup 100000 1 db_c1).1.last_manager_uuid = some 1
    ∧ (tick true no_lookup 100000 1 db_c1).1.last_manager_check_in
        = some 100000
    ∧ (tick true no_lookup 100000 1 db_c1).2 = true
    ∧ tick false no_lookup 100000 1 db_c1
        = tick true no_lookup 100000 1 db_c1 := by
  decide

/-- Playing item with unresolved (null) duration and three skip votes,
used by the C3 scenario. -/
def it_c3 : QueueItem :=
  { id := 1
    identifier := "trackZ"
    playing_start_time := some 0
    duration_ms := none
    votes := [⟨1, 0, true⟩, ⟨2, 0, true⟩, ⟨3, 0, true⟩] }

/-- Party playing `it_c3` with four fresh presences, so the skip-vote
threshold (3 of 4) is met. -/
def db_c3 : Party :=
  { playing_item := some 1
    items := [it_c3]
    presences := [⟨1, 99000⟩, ⟨2, 99000⟩, ⟨3, 99000⟩, ⟨4, 99000⟩]
    last_manager_uuid := some 1
    last_manager_check_in := some 99500 }

/-- Claim C3 is violated by the code: for a playing item with unknown
duration, `get_track_position` returns `(0, 0)` and the position log line
divides by the zero duration, so the tick aborts with a
`ZeroDivisionError` before the advancement check — the condition is fatal
to the tick, and the item is not advanced even though the skip-vote
threshold (3 votes of 4 users) is met. -/
theorem c3_zero_duration_aborts_tick :
    should_skip (user_count db_c3) it_c3 = true
    ∧ get_track_position it_c3 100000 = (0, 0)
    ∧ update_track true no_lookup 100000 db_c3
        = (db_c3, some TickError.zeroDivision)
    ∧ update_track false no_lookup 100000 db_c3
        = (db_c3, some TickError.zeroDivision)
    ∧ tick true no_lookup 100000 1 db_c3 = (db_c3, true)
    ∧ tick false no_lookup 100000 1 db_c3 = (db_c3, true) := by
  decide

/-- Playing item two skip votes into a 200000ms track, used by the C2
scenario. -/
def it1_c2 : QueueItem :=
  { id := 1
    identifier := "trackP"
    playing_start_time := some 0
    duration_ms := some 200000
    votes := [⟨1, 0, true⟩, ⟨2, 0, true⟩] }

/-- Queued follow-up item of the C2 scenario. -/
def it2_c2 : QueueItem :=
  { id := 2
    identifier := "trackQ"
    playing_start_time := none
    duration_ms := some 180000
    votes := [] }

/-- Party playing `it1_c2` mid-track at `now = 100000`, with two fresh
presences and two stale ones (check-in 0, older than the 60000ms liveness
window). -/
def db_c2 : Party :=
  { playing_item := some 1
    items := [it1_c2, it2_c2]
    presences := [⟨1, 99000⟩, ⟨2, 99000⟩, ⟨3, 0⟩, ⟨4, 0⟩]
    last_manager_uuid := some 7
    last_manager_check_in := some 99500 }

/-- Counterexample to claim C2: the skip check inside the tick consumes
the pre-prune presence count (4), not the post-prune count (2).  With 2
skip votes, a check against the post-prune count would advance the track
(as the spec-ordered tick does), but the code's tick does not advance. -/
theorem c2_prune_order_counterexample :
    user_count db_c2 = 4
    ∧ user_count (prune_users 100000 db_c2) = 2
    ∧ should_skip 2 it1_c2 = true
    ∧ should_skip 4 it1_c2 = false
    ∧ (maintain_party true no_lookup 100000 7 db_c2).1.playing_item = some 1
    ∧ (maintain_party false no_lookup 100000 7 db_c2).1.playing_item = some 1
    ∧ (maintain_party_spec_order true no_lookup 100000 7 db_c2).1.playing_item
        = some 2
    ∧ (maintain_party_spec_order false no_lookup 100000 7
        db_c2).1.playing_item = some 2 := by
  decide

theorem update_track_playing (nf : Bool) (lookup : String → Option Int)
    (now : Int) (db : Party) (it : QueueItem) (d t : Int)
    (hplay : db.playing_item = some it.id)
    (hfind : findItem db.items it.id = some it)
    (hd : it.duration_ms = some d) (hd0 : d ≠ 0)
    (ht : it.playing_start_time = some t)
    (hmid : now - t < d) :
    update_track nf lookup now db =
      if should_skip (user_count db) it
      then (play_next_queue_item nf lookup now db, none)
      else (db, none) := by
  have hpos : get_track_position it now = (now - t, d) := by
    simp only [get_track_position, hd, ht]
    rw [if_neg hd0, if_neg (by omega)]
  unfold update_track
  simp only [hplay, Option.isNone_some, Bool.false_eq_true, false_and,
    if_false, Option.some_bind, hfind, hpos]
  rw [if_neg hd0]
  by_cases hs : should_skip (user_count db) it = true
  · rw [if_pos (Or.inr hs), if_pos hs]
  · rw [if_neg (by push_neg; exact ⟨by omega, hs⟩), if_neg hs]

/-- Claim C2 as amended: within a tick, presence pruning runs after the
skip-threshold evaluation; the user count consumed by the skip check is
the pre-prune presence count `user_count db` (stale presences are still
counted in the tick that prunes them), and pruning takes effect in the
stored state only from the end of the tick. -/
theorem c2_skip_check_consumes_preprune_count (nf : Bool)
    (lookup : String → Option Int)
    (now : Int) (uuid : Nat) (db : Party) (it : QueueItem) (d t : Int)
    (hnodup : (db.items.map QueueItem.id).Nodup)
    (hplay : db.playing_item = some it.id)
    (hfind : findItem db.items it.id = some it)
    (hd : it.duration_ms = some d) (hd0 : d ≠ 0)
    (ht : it.playing_start_time = some t)
    (hmid : now - t < d) :
    ((maintain_party nf lookup now uuid db).1.playing_item ≠ db.playing_item
      ↔ should_skip (user_count db) it = true)
    ∧ (maintain_party nf lookup now uuid db).1.presences
        = (prune_users now db).presences := by
  have hut := update_track_playing nf lookup now db it d t hplay hfind hd hd0
    ht hmid
  have hit : it ∈ db.items := List.mem_of_find?_eq_some hfind
  unfold maintain_party
  rw [hut]
  by_cases hs : should_skip (user_count db) it = true
  · rw [if_pos hs]
    constructor
    · show (play_next_queue_item nf lookup now db).playing_item
          ≠ db.playing_item ↔ _
      rw [hplay]
      exact iff_of_true (play_next_playing_ne nf lookup now hnodup hit ht) hs
    · show (prune_users now (play_next_queue_item nf lookup now db)).presences
          = (prune_users now db).presences
      unfold prune_users
      rw [play_next_presences]
  · rw [if_neg hs]
    exact ⟨iff_of_false (fun hne => hne rfl) hs, rfl⟩

/-- Witness for the amended C2 at the concrete party `db_c2`: with the
pre-prune count of 4 users and 2 skip votes, the tick does not advance the
playing item. -/
theorem c2_skip_check_consumes_preprune_count_witness :
    (((maintain_party true no_lookup 100000 7 db_c2).1.playing_item
        ≠ db_c2.playing_item)
      ↔ should_skip (user_count db_c2) it1_c2 = true)
    ∧ (maintain_party true no_lookup 100000 7 db_c2).1.presences
        = (prune_users 100000 db_c2).presences :=
  c2_skip_check_consumes_preprune_count true no_lookup 100000 7 db_c2 it1_c2
    200000 0 (by decide) (by decide) (by decide) (by decide) (by decide)
    (by decide) (by decide)

theorem sql_score_of_voted {it : QueueItem} (h : it.votes ≠ []) :
    sql_score it = some (vote_score it) := by
  unfold sql_score
  rw [if_neg (by simpa using h)]

/-- Queued item with a single +5 vote, used by the C6 scenarios. -/
def item_plus_five : QueueItem :=
  { id := 21
    identifier := "trackF"
    playing_start_time := none
    duration_ms := some 100000
    votes := [⟨1, 5, false⟩] }

/-- Queued item with no votes at all (so its SQL score annotation is
NULL), used by the C6 scenarios. -/
def item_unvoted : QueueItem :=
  { id := 22
    identifier := "trackU"
    playing_start_time := none
    duration_ms := some 100000
    votes := [] }

/-- Queued item with a single -1 vote, used by the C6 scenarios. -/
def item_minus_one : QueueItem :=
  { id := 23
    identifier := "trackM"
    playing_start_time := none
    duration_ms := some 100000
    votes := [⟨1, -1, false⟩] }

/-- Counterexample to claim C6: an unvoted queued item has sum-of-weights
score 0 but SQL score NULL, and NULL sorts outside the real scores.  Under
NULL-first ordering (PostgreSQL) the selector passes over the unique
strictly-highest-scoring item `item_plus_five` (score 5 beats 0) and
returns the unvoted item; under NULL-last ordering (SQLite, MySQL) the
unique strictly-highest-scoring item is the unvoted one (score 0 beats -1)
yet the selector returns `item_minus_one`.  Either way the claim fails. -/
theorem c6_null_score_counterexample :
    item_plus_five.playing_start_time = none
    ∧ item_unvoted.playing_start_time = none
    ∧ item_minus_one.playing_start_time = none
    ∧ vote_score item_unvoted < vote_score item_plus_five
    ∧ get_next true [item_plus_five, item_unvoted] = some item_unvoted
    ∧ vote_score item_minus_one < vote_score item_unvoted
    ∧ get_next false [item_minus_one, item_unvoted] = some item_minus_one := by
  decide

/-- Claim C6 as amended: when every queued item has at least one vote (so
no NULL score annotations arise) and a unique item of strictly highest
vote score exists among them, `get_next` returns it under either backend
NULL placement; and whatever `get_next` returns is a stored queued item,
never one in the playing state (retired items are deleted rows, hence
never stored). -/
theorem c6_get_next_unique_max (nf : Bool) :
    (∀ (items : List QueueItem) (x : QueueItem),
        x ∈ items → x.playing_start_time = none →
        (∀ y ∈ items, y.playing_start_time = none → y.votes ≠ []) →
        (∀ y ∈ items, y.playing_start_time = none → y ≠ x →
          vote_score y < vote_score x) →
        get_next nf items = some x)
    ∧ (∀ (items : List QueueItem) (z : QueueItem),
        get_next nf items = some z →
        z ∈ items ∧ z.playing_start_time = none) := by
  refine ⟨?_, fun items z h => get_next_mem h⟩
  intro items x hx hq hvoted hmax
  have hxqs : x ∈ voted_queryset nf items := by
    unfold voted_queryset
    rw [List.mem_insertionSort, List.mem_filter]
    exact ⟨hx, by simp [hq]⟩
  have hsorted : List.Sorted (score_order nf) (voted_queryset nf items) :=
    List.sorted_insertionSort (score_order nf) _
  cases hqe : voted_queryset nf items with
  | nil => rw [hqe] at hxqs; exact absurd hxqs (List.not_mem_nil x)
  | cons hd tl =>
    have hhd : get_next nf items = some hd := by
      unfold get_next
      rw [hqe]
      rfl
    obtain ⟨hdmem, hdnone⟩ := get_next_mem hhd
    by_cases hhx : hd = x
    · rw [hhx] at hhd
      exact hhd
    · rw [hqe] at hxqs hsorted
      have hxtl : x ∈ tl := by
        cases List.mem_cons.mp hxqs with
        | inl h => exact absurd h.symm hhx
        | inr h => exact h
      have hrel : score_order nf hd x :=
        List.rel_of_sorted_cons hsorted x hxtl
      unfold score_order at hrel
      rw [sql_score_of_voted (hvoted hd hdmem hdnone),
        sql_score_of_voted (hvoted x hx hq)] at hrel
      have hle : vote_score x ≤ vote_score hd := hrel
      exact absurd hle (not_le.mpr (hmax hd hdmem hdnone hhx))

/-- Witness for the amended C6: among the all-voted queued items
`item_plus_five` (score 5) and `item_minus_one` (score -1), the selector
returns the unique strictly-highest-scoring `item_plus_five`, a stored
queued item. -/
theorem c6_get_next_unique_max_witness :
    get_next true [item_plus_five, item_minus_one] = some item_plus_five
    ∧ (item_plus_five ∈ [item_plus_five, item_minus_one]
        ∧ item_plus_five.playing_start_time = none) :=
  ⟨(c6_get_next_unique_max true).1 [item_plus_five, item_minus_one]
      item_plus_five (by decide) (by decide) (by decide) (by decide),
    (c6_get_next_unique_max true).2 [item_plus_five, item_minus_one]
      item_plus_five
      ((c6_get_next_unique_max true).1 [item_plus_five, item_minus_one]
        item_plus_five (by decide) (by decide) (by decide) (by decide))⟩

/-- Claim C9: across `play_next_queue_item` (the only operation that sets a
playback-started timestamp), every surviving row either keeps its previous
timestamp unchanged or goes from unset to `some now` as it transitions
queued → playing; the superseded playing row is destroyed rather than
re-queued; and selection never picks a row whose timestamp is already
set. -/
theorem c9_playing_start_set_once (nf : Bool) (lookup : String → Option Int)
    (now : Int)
    (p : Party) (hnodup : (p.items.map QueueItem.id).Nodup) :
    (∀ it' ∈ (play_next_queue_item nf lookup now p).items,
        ∃ it ∈ p.items, it'.id = it.id ∧
          (it'.playing_start_time = it.playing_start_time
            ∨ (it.playing_start_time = none
                ∧ it'.playing_start_time = some now)))
    ∧ (∀ pid, p.playing_item = some pid →
        (∀ it ∈ p.items, it.id = pid → it.playing_start_time ≠ none) →
        pid ∉ ((play_next_queue_item nf lookup now p).items.map QueueItem.id))
    ∧ (∀ j, get_next nf p.items = some j → j.playing_start_time = none) := by
  refine ⟨?_, ?_, fun j hj => (get_next_mem hj).2⟩
  · intro it' hit'
    unfold play_next_queue_item at hit'
    cases hnext : get_next nf p.items with
    | none =>
      rw [hnext] at hit'
      cases hpi : p.playing_item with
      | none =>
        rw [hpi] at hit'
        dsimp at hit'
        exact ⟨it', hit', rfl, Or.inl rfl⟩
      | some pid =>
        rw [hpi] at hit'
        dsimp at hit'
        exact ⟨it', List.mem_of_mem_filter hit', rfl, Or.inl rfl⟩
    | some nit =>
      rw [hnext] at hit'
      obtain ⟨hnmem, hnnone⟩ := get_next_mem hnext
      have hcommon : ∀ it0, it0 ∈ p.items →
          (if it0.id = nit.id then start_playing lookup now nit else it0)
            = it' →
          ∃ it ∈ p.items, it'.id = it.id ∧
            (it'.playing_start_time = it.playing_start_time
              ∨ (it.playing_start_time = none
                  ∧ it'.playing_start_time = some now)) := by
        intro it0 hit0 hf
        by_cases hid : it0.id = nit.id
        · rw [if_pos hid] at hf
          have h0 : it0 = nit := item_id_inj hnodup hit0 hnmem hid
          refine ⟨it0, hit0, ?_, Or.inr ⟨by rw [h0]; exact hnnone, ?_⟩⟩
          · rw [← hf, start_playing_id]
            exact hid.symm
          · rw [← hf]
            exact start_playing_time lookup now nit
        · rw [if_neg hid] at hf
          exact ⟨it0, hit0, by rw [← hf], Or.inl (by rw [← hf])⟩
      cases hpi : p.playing_item with
      | none =>
        rw [hpi] at hit'
        dsimp at hit'
        obtain ⟨it0, hit0, hf⟩ := List.mem_map.mp hit'
        exact hcommon it0 hit0 hf
      | some pid =>
        rw [hpi] at hit'
        dsimp at hit'
        obtain ⟨it0, hit0f, hf⟩ := List.mem_map.mp hit'
        exact hcommon it0 (List.mem_of_mem_filter hit0f) hf
  · intro pid hp hall hmem
    unfold play_next_queue_item at hmem
    rw [hp] at hmem
    cases hnext : get_next nf p.items with
    | none =>
      rw [hnext] at hmem
      dsimp at hmem
      obtain ⟨it0, hit0, hid0⟩ := List.mem_map.mp hmem
      have hne := List.of_mem_filter hit0
      simp only [decide_eq_true_iff] at hne
      exact hne hid0
    | some nit =>
      rw [hnext] at hmem
      dsimp at hmem
      obtain ⟨hnmem, hnnone⟩ := get_next_mem hnext
      obtain ⟨itm, hitm, hidm⟩ := List.mem_map.mp hmem
      obtain ⟨it0, hit0f, hf⟩ := List.mem_map.mp hitm
      by_cases hid : it0.id = nit.id
      · rw [if_pos hid] at hf
        have hnid : nit.id = pid := by
          rw [← hidm, ← hf, start_playing_id]
        exact absurd hnnone (hall nit hnmem hnid)
      · rw [if_neg hid] at hf
        have h1 : it0.id = pid := by rw [← hidm, ← hf]
        have hne := List.of_mem_filter hit0f
        simp only [decide_eq_true_iff] at hne
        exact hne h1

/-- Witness for C9 at the concrete party `db_c2` (distinct row ids, playing
item `it1_c2` with a set timestamp). -/
theorem c9_playing_start_set_once_witness :
    (∀ it' ∈ (play_next_queue_item true no_lookup 100000 db_c2).items,
        ∃ it ∈ db_c2.items, it'.id = it.id ∧
          (it'.playing_start_time = it.playing_start_time
            ∨ (it.playing_start_time = none
                ∧ it'.playing_start_time = some 100000)))
    ∧ (∀ pid, db_c2.playing_item = some pid →
        (∀ it ∈ db_c2.items, it.id = pid → it.playing_start_time ≠ none) →
        pid ∉ ((play_next_queue_item true no_lookup 100000 db_c2).items.map
          QueueItem.id))
    ∧ (∀ j, get_next true db_c2.items = some j →
        j.playing_start_time = none) :=
  c9_playing_start_set_once true no_lookup 100000 db_c2 (by decide)

end Sutrofm
